import Mathlib

/-!
Verification of the Vplayer audio engine core.

This development shallowly embeds the data model and operations of the
player's audio core:

* `PlaybackState` and its transitions (`src-tauri/src/audio/playback_state.rs`),
  with wall-clock instants and durations modelled as exact rationals
  (`Instant` becomes a `ℚ` timestamp, `Duration` a non-negative `ℚ`;
  `Instant::elapsed` and `Duration::saturating_sub` clamp at zero).
* `VisualizerBuffer` (`src-tauri/src/audio/visualizer.rs`), with the
  `VecDeque` modelled as a list whose head is the oldest sample.
* The `AudioPlayer` timing fields and its `recover` control flow
  (`src-tauri/src/audio/mod.rs`), with device and decoder interactions
  supplied by an explicit environment record.
* The DSP effects chain (`src-tauri/src/effects.rs`): biquad filters, the
  10-band equalizer, Freeverb-style reverb, echo delay, bass boost and the
  tanh soft clipper, with `f32` arithmetic idealized over `ℝ`.

Theorems at the end settle the specification claims about these
operations.
-/

/-! ## Time arithmetic

`Duration` values are non-negative rationals.  `elapsedQ now t` models
`Instant::elapsed` read at wall-clock time `now` for an instant recorded at
time `t`; `dsubQ` models `Duration::saturating_sub`.  Both clamp at zero,
as the Rust types do. -/

/-- `Instant::elapsed` at wall-clock `now` for an instant `t` (clamped at zero). -/
def elapsedQ (now t : ℚ) : ℚ := max (now - t) 0

/-- `Duration::saturating_sub`. -/
def dsubQ (a b : ℚ) : ℚ := max (a - b) 0

/-! ## PlaybackState (`audio/playback_state.rs`) -/

/-- Playback position and timing state (`PlaybackState` in
`audio/playback_state.rs`). -/
structure PlaybackState where
  current_path : Option String
  start_time : Option ℚ
  seek_offset : ℚ
  pause_start : Option ℚ
  paused_duration : ℚ
  total_duration : ℚ
deriving DecidableEq

/-- `PlaybackState::new`. -/
def PlaybackState.new : PlaybackState :=
  { current_path := none
    start_time := none
    seek_offset := 0
    pause_start := none
    paused_duration := 0
    total_duration := 0 }

/-- `PlaybackState::reset_for_load`. -/
def PlaybackState.reset_for_load (s : PlaybackState) (path : String) (duration : ℚ) :
    PlaybackState :=
  { s with
    current_path := some path
    total_duration := duration
    start_time := none
    seek_offset := 0
    paused_duration := 0
    pause_start := none }

/-- `PlaybackState::mark_playing`, invoked at wall-clock time `now`.
Returns the updated state together with the `Option<Duration>` result. -/
def PlaybackState.mark_playing (s : PlaybackState) (now : ℚ) :
    PlaybackState × Option ℚ :=
  match s.pause_start with
  | some ps =>
      let pause_duration := elapsedQ now ps
      ({ s with pause_start := none
                paused_duration := s.paused_duration + pause_duration },
       some pause_duration)
  | none =>
      ({ s with start_time := some now }, none)

/-- `PlaybackState::mark_paused` at wall-clock time `now`. -/
def PlaybackState.mark_paused (s : PlaybackState) (now : ℚ) : PlaybackState :=
  { s with pause_start := some now }

/-- `PlaybackState::clear`.  Note: the source resets every field except
`total_duration`, which it leaves untouched. -/
def PlaybackState.clear (s : PlaybackState) : PlaybackState :=
  { s with
    current_path := none
    start_time := none
    seek_offset := 0
    paused_duration := 0
    pause_start := none }

/-- `PlaybackState::mark_seeked` at wall-clock time `now`. -/
def PlaybackState.mark_seeked (s : PlaybackState) (now position : ℚ)
    (is_paused : Bool) : PlaybackState :=
  { s with
    start_time := some now
    seek_offset := position
    paused_duration := 0
    pause_start := if is_paused then some now else none }

/-- `PlaybackState::get_position` read at wall-clock time `now`. -/
def PlaybackState.get_position (s : PlaybackState) (now : ℚ)
    (sink_empty sink_paused : Bool) : ℚ :=
  if sink_empty && s.start_time.isSome then
    s.total_duration
  else
    match s.start_time with
    | some start =>
        let e := elapsedQ now start
        let additional_pause :=
          if sink_paused then (s.pause_start.map (elapsedQ now)).getD 0 else 0
        let playing_time := dsubQ e (s.paused_duration + additional_pause)
        let position := s.seek_offset + playing_time
        if 0 < s.total_duration then min position s.total_duration else position
    | none => 0

/-- States reachable through the public `PlaybackState` operations, at a
wall-clock timestamp that only moves forward.  `mark_seeked` carries the
precondition of `Duration::from_secs_f64` (a non-negative position), and
`reset_for_load` a non-negative track duration, since Rust `Duration`
values cannot be negative. -/
inductive PlaybackState.Reachable : PlaybackState → ℚ → Prop
  | init (t : ℚ) : PlaybackState.Reachable PlaybackState.new t
  | load {s : PlaybackState} {t : ℚ} (t' : ℚ) (path : String) (duration : ℚ) :
      PlaybackState.Reachable s t → t ≤ t' → 0 ≤ duration →
      PlaybackState.Reachable (s.reset_for_load path duration) t'
  | play {s : PlaybackState} {t : ℚ} (t' : ℚ) :
      PlaybackState.Reachable s t → t ≤ t' →
      PlaybackState.Reachable (s.mark_playing t').1 t'
  | pause {s : PlaybackState} {t : ℚ} (t' : ℚ) :
      PlaybackState.Reachable s t → t ≤ t' →
      PlaybackState.Reachable (s.mark_paused t') t'
  | clear {s : PlaybackState} {t : ℚ} (t' : ℚ) :
      PlaybackState.Reachable s t → t ≤ t' →
      PlaybackState.Reachable s.clear t'
  | seek {s : PlaybackState} {t : ℚ} (t' position : ℚ) (is_paused : Bool) :
      PlaybackState.Reachable s t → t ≤ t' → 0 ≤ position →
      PlaybackState.Reachable (s.mark_seeked t' position is_paused) t'

/-! ## VisualizerBuffer (`audio/visualizer.rs`) -/

/-- Ring buffer for visualizer samples (`VisualizerBuffer` in
`audio/visualizer.rs`).  The `VecDeque` is a list whose head is the oldest
sample. -/
structure VisualizerBuffer where
  samples : List ℚ
  capacity : ℕ
deriving DecidableEq

/-- `VisualizerBuffer::new`. -/
def VisualizerBuffer.new (capacity : ℕ) : VisualizerBuffer :=
  { samples := [], capacity := capacity }

/-- `VisualizerBuffer::push`: `pop_front` when at (or beyond) capacity,
then `push_back`. -/
def VisualizerBuffer.push (b : VisualizerBuffer) (sample : ℚ) : VisualizerBuffer :=
  if b.capacity ≤ b.samples.length then
    { b with samples := b.samples.drop 1 ++ [sample] }
  else
    { b with samples := b.samples ++ [sample] }

/-- `VisualizerBuffer::get_samples`. -/
def VisualizerBuffer.get_samples (b : VisualizerBuffer) : List ℚ :=
  b.samples

/-- `VisualizerBuffer::clear`. -/
def VisualizerBuffer.clearBuf (b : VisualizerBuffer) : VisualizerBuffer :=
  { b with samples := [] }

/-- A sequence of `push` calls. -/
def VisualizerBuffer.pushAll (b : VisualizerBuffer) (l : List ℚ) : VisualizerBuffer :=
  l.foldl VisualizerBuffer.push b

/-- The suffix of `xs` of length `min c xs.length`: the `c` most recent
samples in oldest-to-newest order. -/
def lastN (c : ℕ) (xs : List ℚ) : List ℚ :=
  xs.drop (xs.length - c)

example : ((VisualizerBuffer.new 3).pushAll [1, 2, 3, 4]).samples = [2, 3, 4] := by decide
example : ((VisualizerBuffer.new 0).push 5).samples = [5] := by decide

/-! ## AudioPlayer timing state and `recover` (`audio/mod.rs`)

The `AudioPlayer` keeps its own copies of the timing fields (it does not
use `PlaybackState`).  The rodio `Sink`, `OutputStream` and `Mixer` are
external OS resources; the sink is modelled by its observable flags and
volume, the stream and mixer by opaque handles.  Operations that perform
IO (`create_high_quality_output_with_device_name`, and the `load` /
`seek` / `play` sub-calls inside `recover`) take their outcomes from an
explicit environment record. -/

/-- Observable state of a rodio `Sink`. -/
structure SinkState where
  paused : Bool
  empty : Bool
  volume : ℚ
deriving DecidableEq

/-- The fields of `AudioPlayer` touched by `get_position`, `is_playing`
and `recover` (`audio/mod.rs`). -/
structure AudioPlayerState where
  sink : SinkState
  stream : Option ℕ
  mixer : Option ℕ
  current_path : Option String
  start_time : Option ℚ
  seek_offset : ℚ
  pause_start : Option ℚ
  paused_duration : ℚ
  total_duration : ℚ
  last_volume : ℚ
  last_active : ℚ
  connected_device_name : Option String

/-- `AudioPlayer::get_position` (`audio/mod.rs`), read at wall-clock
`now`.  Unlike `PlaybackState::get_position`, this version neither clamps
to `total_duration` nor special-cases an empty sink. -/
def AudioPlayerState.get_position (s : AudioPlayerState) (now : ℚ) : ℚ :=
  match s.start_time with
  | some start =>
      let e := elapsedQ now start
      let additional_pause :=
        if s.sink.paused then (s.pause_start.map (elapsedQ now)).getD 0 else 0
      let playing_time := dsubQ e (s.paused_duration + additional_pause)
      s.seek_offset + playing_time
  | none => 0

/-- `AudioPlayer::is_playing` (`audio/mod.rs`); the logging branch has no
observable effect. -/
def AudioPlayerState.is_playing (s : AudioPlayerState) : Bool :=
  !s.sink.paused && !s.sink.empty

/-- Outcomes of the IO performed inside `AudioPlayer::recover`:
whether a device is available, what
`device::create_high_quality_output_with_device_name` returns (`none`
models its `Err` case), and the behaviour of the `load`, `seek` and
`play` sub-calls, each returning a success flag and the resulting player
state. -/
structure RecoverEnv where
  now : ℚ
  deviceAvailable : Bool
  createOutput : Option (ℕ × ℕ × Option String)
  loadEff : String → AudioPlayerState → Bool × AudioPlayerState
  seekEff : ℚ → AudioPlayerState → Bool × AudioPlayerState
  playEff : AudioPlayerState → Bool × AudioPlayerState

/-- `AudioPlayer::recover` (`audio/mod.rs`): bail out with `Ok(false)`
when no device is available; otherwise recreate the output, swap in a new
sink at the remembered volume, and reload/reseek/resume the current
track, ignoring seek and play failures but returning `Ok(false)` when the
reload fails. -/
def AudioPlayerState.recover (env : RecoverEnv) (s : AudioPlayerState) :
    Except String Bool × AudioPlayerState :=
  if !env.deviceAvailable then
    (Except.ok false, s)
  else
    let current_path := s.current_path
    let current_position := s.get_position env.now
    let was_playing := s.is_playing
    let volume := s.last_volume
    match env.createOutput with
    | some out =>
        let newSink : SinkState := { paused := false, empty := true, volume := volume }
        let s1 := { s with
          stream := some out.1
          mixer := some out.2.1
          connected_device_name := out.2.2
          sink := newSink
          last_active := env.now }
        match current_path with
        | some path =>
            let r := env.loadEff path s1
            if r.1 then
              let s2 := if 1 / 2 < current_position then (env.seekEff current_position r.2).2 else r.2
              let s3 := if was_playing then (env.playEff s2).2 else s2
              (Except.ok true, s3)
            else
              (Except.ok false, r.2)
        | none => (Except.ok true, s1)
    | none => (Except.ok false, s)

/-! ## DSP effects (`effects.rs`)

`f32` arithmetic is idealized over `ℝ`.  Mutating methods become
functions returning the updated value; `usize` indices are `ℕ`, with
`as usize` casts of non-negative floats modelled by `Nat.floor`. -/

noncomputable section EffectsModel

open Real

/-- `EffectsConfig` (`effects.rs`). -/
structure EffectsConfig where
  tempo : ℝ
  reverb_mix : ℝ
  reverb_room_size : ℝ
  bass_boost : ℝ
  echo_delay : ℝ
  echo_feedback : ℝ
  echo_mix : ℝ
  eq_bands : Fin 10 → ℝ

/-- `EffectsConfig::default`. -/
def EffectsConfig.default : EffectsConfig :=
  { tempo := 1
    reverb_mix := 0
    reverb_room_size := 0.5
    bass_boost := 0
    echo_delay := 0.3
    echo_feedback := 0.3
    echo_mix := 0
    eq_bands := fun _ => 0 }

/-- The documented ranges of `EffectsConfig` fields (spec §3). -/
def EffectsConfig.InDocumentedRanges (c : EffectsConfig) : Prop :=
  0.5 ≤ c.tempo ∧ c.tempo ≤ 2 ∧
  0 ≤ c.reverb_mix ∧ c.reverb_mix ≤ 1 ∧
  0 ≤ c.reverb_room_size ∧ c.reverb_room_size ≤ 1 ∧
  0 ≤ c.bass_boost ∧ c.bass_boost ≤ 12 ∧
  0 ≤ c.echo_delay ∧
  0 ≤ c.echo_feedback ∧ c.echo_feedback ≤ 0.95 ∧
  0 ≤ c.echo_mix ∧ c.echo_mix ≤ 1 ∧
  ∀ i, -12 ≤ c.eq_bands i ∧ c.eq_bands i ≤ 12

/-- `BiquadFilter` (`effects.rs`): five coefficients plus the two delay
registers. -/
structure BiquadFilter where
  a0 : ℝ
  a1 : ℝ
  a2 : ℝ
  b1 : ℝ
  b2 : ℝ
  z1 : ℝ
  z2 : ℝ

/-- `BiquadFilter::new`. -/
def BiquadFilter.new : BiquadFilter :=
  { a0 := 1, a1 := 0, a2 := 0, b1 := 0, b2 := 0, z1 := 0, z2 := 0 }

/-- `BiquadFilter::set_peaking`. -/
def BiquadFilter.set_peaking (f : BiquadFilter) (sample_rate : ℕ)
    (freq q gain_db : ℝ) : BiquadFilter :=
  let w0 := 2 * π * freq / (sample_rate : ℝ)
  let alpha := Real.sin w0 / (2 * q)
  let a := (10 : ℝ) ^ (gain_db / 40)
  let cos_w0 := Real.cos w0
  let b0 := 1 + alpha * a
  let b1 := -2 * cos_w0
  let b2 := 1 - alpha * a
  let a0 := 1 + alpha / a
  let a1 := -2 * cos_w0
  let a2 := 1 - alpha / a
  { f with a0 := b0 / a0, a1 := b1 / a0, a2 := b2 / a0, b1 := a1 / a0, b2 := a2 / a0 }

/-- `BiquadFilter::set_lowshelf`. -/
def BiquadFilter.set_lowshelf (f : BiquadFilter) (sample_rate : ℕ)
    (freq q gain_db : ℝ) : BiquadFilter :=
  let w0 := 2 * π * freq / (sample_rate : ℝ)
  let a := (10 : ℝ) ^ (gain_db / 40)
  let alpha := Real.sin w0 / (2 * q)
  let cos_w0 := Real.cos w0
  let sqrt_a := Real.sqrt a
  let b0 := a * ((a + 1) - (a - 1) * cos_w0 + 2 * sqrt_a * alpha)
  let b1 := 2 * a * ((a - 1) - (a + 1) * cos_w0)
  let b2 := a * ((a + 1) - (a - 1) * cos_w0 - 2 * sqrt_a * alpha)
  let a0 := (a + 1) + (a - 1) * cos_w0 + 2 * sqrt_a * alpha
  let a1 := -2 * ((a - 1) + (a + 1) * cos_w0)
  let a2 := (a + 1) + (a - 1) * cos_w0 - 2 * sqrt_a * alpha
  { f with a0 := b0 / a0, a1 := b1 / a0, a2 := b2 / a0, b1 := a1 / a0, b2 := a2 / a0 }

/-- `BiquadFilter::set_highshelf`. -/
def BiquadFilter.set_highshelf (f : BiquadFilter) (sample_rate : ℕ)
    (freq q gain_db : ℝ) : BiquadFilter :=
  let w0 := 2 * π * freq / (sample_rate : ℝ)
  let a := (10 : ℝ) ^ (gain_db / 40)
  let alpha := Real.sin w0 / (2 * q)
  let cos_w0 := Real.cos w0
  let sqrt_a := Real.sqrt a
  let b0 := a * ((a + 1) + (a - 1) * cos_w0 + 2 * sqrt_a * alpha)
  let b1 := -2 * a * ((a - 1) + (a + 1) * cos_w0)
  let b2 := a * ((a + 1) + (a - 1) * cos_w0 - 2 * sqrt_a * alpha)
  let a0 := (a + 1) - (a - 1) * cos_w0 + 2 * sqrt_a * alpha
  let a1 := 2 * ((a - 1) - (a + 1) * cos_w0)
  let a2 := (a + 1) - (a - 1) * cos_w0 - 2 * sqrt_a * alpha
  { f with a0 := b0 / a0, a1 := b1 / a0, a2 := b2 / a0, b1 := a1 / a0, b2 := a2 / a0 }

/-- `BiquadFilter::process`: one direct-form-II-transposed step, returning
the output sample and the filter with updated delay registers. -/
def BiquadFilter.process (f : BiquadFilter) (input : ℝ) : ℝ × BiquadFilter :=
  let output := f.a0 * input + f.z1
  let z1 := f.a1 * input - f.b1 * output + f.z2
  let z2 := f.a2 * input - f.b2 * output
  (output, { f with z1 := z1, z2 := z2 })

/-- `Equalizer` (`effects.rs`): the `Vec` of exactly ten filters is a
function on `Fin 10`. -/
structure Equalizer where
  filters : Fin 10 → BiquadFilter
  frequencies : Fin 10 → ℝ
  sample_rate : ℕ

/-- The fixed band frequencies of `Equalizer::new`. -/
def eqFrequencies : Fin 10 → ℝ :=
  ![60, 170, 310, 600, 1000, 3000, 6000, 12000, 14000, 16000]

/-- `Equalizer::update_gains`: band 0 low-shelf (Q = 0.707), band 9
high-shelf (Q = 0.707), the rest peaking (Q = 1.41). -/
def Equalizer.update_gains (eq : Equalizer) (gains : Fin 10 → ℝ) : Equalizer :=
  { eq with filters := fun i =>
      if i.val = 0 then
        (eq.filters i).set_lowshelf eq.sample_rate (eq.frequencies i) 0.707 (gains i)
      else if i.val = 9 then
        (eq.filters i).set_highshelf eq.sample_rate (eq.frequencies i) 0.707 (gains i)
      else
        (eq.filters i).set_peaking eq.sample_rate (eq.frequencies i) 1.41 (gains i) }

/-- `Equalizer::new`: ten fresh filters, then `update_gains(&[0.0; 10])`. -/
def Equalizer.new (sample_rate : ℕ) : Equalizer :=
  Equalizer.update_gains
    { filters := fun _ => BiquadFilter.new
      frequencies := eqFrequencies
      sample_rate := sample_rate }
    (fun _ => 0)

/-- `Equalizer::process`: chain the ten filters in band order. -/
def Equalizer.process (eq : Equalizer) (input : ℝ) : ℝ × Equalizer :=
  let r := (List.finRange 10).foldl
    (fun acc i =>
      let pr := (acc.2 i).process acc.1
      (pr.1, Function.update acc.2 i pr.2))
    (input, eq.filters)
  (r.1, { eq with filters := r.2 })

/-- Feeding a whole sample sequence through `Equalizer::process`. -/
def Equalizer.processSeq (eq : Equalizer) : List ℝ → List ℝ × Equalizer
  | [] => ([], eq)
  | x :: xs =>
      let r := eq.process x
      let rest := r.2.processSeq xs
      (r.1 :: rest.1, rest.2)

/-- `CombFilter` (`effects.rs`). -/
structure CombFilter where
  buffer : List ℝ
  index : ℕ
  feedback : ℝ
  damp : ℝ
  damp_hist : ℝ

/-- `CombFilter::new`: capacity `delay_samples * (sample_rate / 44100 + 1)`
(integer division, as for `usize`). -/
def CombFilter.new (sample_rate delay_samples : ℕ) : CombFilter :=
  let capacity := delay_samples * (sample_rate / 44100 + 1)
  { buffer := List.replicate capacity 0
    index := 0
    feedback := 0.7
    damp := 0.2
    damp_hist := 0 }

/-- `CombFilter::set_feedback`. -/
def CombFilter.set_feedback (c : CombFilter) (val : ℝ) : CombFilter :=
  { c with feedback := val }

/-- `CombFilter::set_damp`. -/
def CombFilter.set_damp (c : CombFilter) (val : ℝ) : CombFilter :=
  { c with damp := val }

/-- `CombFilter::process`. -/
def CombFilter.process (c : CombFilter) (input : ℝ) : ℝ × CombFilter :=
  if c.buffer.isEmpty then (input, c)
  else
    let output := c.buffer.getD c.index 0
    let damp_hist := output * (1 - c.damp) + c.damp_hist * c.damp
    let buffer := c.buffer.set c.index (input + damp_hist * c.feedback)
    let index := c.index + 1
    let index := if c.buffer.length ≤ index then 0 else index
    (output, { c with buffer := buffer, index := index, damp_hist := damp_hist })

/-- `AllpassFilter` (`effects.rs`). -/
structure AllpassFilter where
  buffer : List ℝ
  index : ℕ
  feedback : ℝ

/-- `AllpassFilter::new`. -/
def AllpassFilter.new (sample_rate delay_samples : ℕ) : AllpassFilter :=
  let capacity := delay_samples * (sample_rate / 44100 + 1)
  { buffer := List.replicate capacity 0
    index := 0
    feedback := 0.5 }

/-- `AllpassFilter::process`. -/
def AllpassFilter.process (f : AllpassFilter) (input : ℝ) : ℝ × AllpassFilter :=
  if f.buffer.isEmpty then (input, f)
  else
    let buffered := f.buffer.getD f.index 0
    let output := -input + buffered
    let buffer := f.buffer.set f.index (input + buffered * f.feedback)
    let index := f.index + 1
    let index := if f.buffer.length ≤ index then 0 else index
    (output, { f with buffer := buffer, index := index })

/-- `Reverb` (`effects.rs`). -/
structure Reverb where
  combs : List CombFilter
  allpasses : List AllpassFilter
  room_size : ℝ
  sample_rate : ℕ
  comb_tunings : List ℕ
  allpass_tunings : List ℕ

/-- `Reverb::init_filters`: buffers sized by the tunings scaled by
`sample_rate / 44100.0` and truncated (`as usize`). -/
def Reverb.init_filters (r : Reverb) : Reverb :=
  let scale := (r.sample_rate : ℝ) / 44100
  { r with
    combs := r.comb_tunings.map fun t => CombFilter.new r.sample_rate ⌊(t : ℝ) * scale⌋₊
    allpasses := r.allpass_tunings.map fun t => AllpassFilter.new r.sample_rate ⌊(t : ℝ) * scale⌋₊ }

/-- `Reverb::update_params`: feedback `0.7 + room_size * 0.28`, damping
`0.2 * (1 - room_size)` pushed into every comb. -/
def Reverb.update_params (r : Reverb) : Reverb :=
  let feedback := 0.7 + r.room_size * 0.28
  let damp := 0.2 * (1 - r.room_size)
  { r with combs := r.combs.map fun c => (c.set_feedback feedback).set_damp damp }

/-- `Reverb::new`. -/
def Reverb.new (sample_rate : ℕ) (room_size : ℝ) : Reverb :=
  Reverb.update_params <| Reverb.init_filters
    { combs := []
      allpasses := []
      room_size := room_size
      sample_rate := sample_rate
      comb_tunings := [1116, 1188, 1277, 1356, 1422, 1491, 1557, 1617]
      allpass_tunings := [556, 441, 341, 225] }

/-- The comb loop of `Reverb::process`: feed `input` to every comb in
order, accumulating the sum of their outputs. -/
def combSum : List CombFilter → ℝ → ℝ → ℝ × List CombFilter
  | [], _, acc => (acc, [])
  | c :: cs, input, acc =>
      let r := c.process input
      let rest := combSum cs input (acc + r.1)
      (rest.1, r.2 :: rest.2)

/-- The allpass loop of `Reverb::process`: chain the allpasses in series. -/
def allpassChain : List AllpassFilter → ℝ → ℝ × List AllpassFilter
  | [], x => (x, [])
  | f :: fs, x =>
      let r := f.process x
      let rest := allpassChain fs r.1
      (rest.1, r.2 :: rest.2)

/-- `Reverb::process`: input scaled by gain 0.015, summed over the combs,
then chained through the allpasses. -/
def Reverb.process (r : Reverb) (input : ℝ) : ℝ × Reverb :=
  let gain : ℝ := 0.015
  let cs := combSum r.combs (input * gain) 0
  let aps := allpassChain r.allpasses cs.1
  (aps.1, { r with combs := cs.2, allpasses := aps.2 })

/-- `Echo` (`effects.rs`). -/
structure Echo where
  buffer : List ℝ
  write_pos : ℕ
  delay_samples : ℕ
  feedback : ℝ

/-- `Echo::new`: buffer of `max delay_samples 1` zeros, feedback clamped
to `[0, 0.95]`. -/
def Echo.new (sample_rate : ℕ) (delay_seconds feedback : ℝ) : Echo :=
  let delay_samples := ⌊(sample_rate : ℝ) * delay_seconds⌋₊
  { buffer := List.replicate (max delay_samples 1) 0
    write_pos := 0
    delay_samples := delay_samples
    feedback := min (max feedback 0) 0.95 }

/-- `Echo::set_feedback`. -/
def Echo.set_feedback (e : Echo) (feedback : ℝ) : Echo :=
  { e with feedback := min (max feedback 0) 0.95 }

/-- `Echo::process`. -/
def Echo.process (e : Echo) (input : ℝ) : ℝ × Echo :=
  if e.buffer.isEmpty then (input, e)
  else
    let read_pos :=
      if e.delay_samples ≤ e.write_pos then e.write_pos - e.delay_samples
      else e.buffer.length + e.write_pos - e.delay_samples
    let read_idx := read_pos % e.buffer.length
    let delayed := e.buffer.getD read_idx 0
    let buffer := e.buffer.set e.write_pos (input + delayed * e.feedback)
    let write_pos := (e.write_pos + 1) % e.buffer.length
    (delayed, { e with buffer := buffer, write_pos := write_pos })

/-- `BassBoost` (`effects.rs`): one low-shelf biquad at 200 Hz, Q 0.707. -/
structure BassBoost where
  filter : BiquadFilter

/-- `BassBoost::new`. -/
def BassBoost.new (sample_rate : ℕ) (boost_db : ℝ) : BassBoost :=
  { filter := BiquadFilter.new.set_lowshelf sample_rate 200 0.707 boost_db }

/-- `BassBoost::process`. -/
def BassBoost.process (b : BassBoost) (input : ℝ) : ℝ × BassBoost :=
  let r := b.filter.process input
  (r.1, { filter := r.2 })

/-- `SoftClipper::saturate`: `(input * 1.0).tanh()`. -/
def SoftClipper.saturate (input : ℝ) : ℝ :=
  Real.tanh (input * 1)

/-- `EffectsProcessor` (`effects.rs`). -/
structure EffectsProcessor where
  config : EffectsConfig
  reverb : Reverb
  echo : Echo
  bass_boost : BassBoost
  equalizer : Equalizer
  sample_rate : ℕ

/-- `EffectsProcessor::new`. -/
def EffectsProcessor.new (sample_rate : ℕ) (config : EffectsConfig) :
    EffectsProcessor :=
  { config := config
    reverb := Reverb.new sample_rate config.reverb_room_size
    echo := Echo.new sample_rate config.echo_delay config.echo_feedback
    bass_boost := BassBoost.new sample_rate config.bass_boost
    equalizer := Equalizer.new sample_rate
    sample_rate := sample_rate }

/-- `EffectsProcessor::process`: EQ, conditional bass boost, conditional
echo mix, conditional reverb mix, then the soft clipper. -/
def EffectsProcessor.process (p : EffectsProcessor) (input : ℝ) :
    ℝ × EffectsProcessor :=
  let r1 := p.equalizer.process input
  let o1 := r1.1
  let r2 := if 0 < p.config.bass_boost then p.bass_boost.process o1 else (o1, p.bass_boost)
  let o2 := r2.1
  let r3 :=
    if 0 < p.config.echo_mix then
      let re := p.echo.process o2
      (o2 * (1 - p.config.echo_mix) + re.1 * p.config.echo_mix, re.2)
    else (o2, p.echo)
  let o3 := r3.1
  let r4 :=
    if 0 < p.config.reverb_mix then
      let rr := p.reverb.process o3
      (o3 * (1 - p.config.reverb_mix) + rr.1 * p.config.reverb_mix, rr.2)
    else (o3, p.reverb)
  let o4 := r4.1
  (SoftClipper.saturate o4,
   { p with equalizer := r1.2, bass_boost := r2.2, echo := r3.2, reverb := r4.2 })

/-! ### The pipeline of `EffectsProcessor::process`, stage by stage

These five stage transformers restate the spec's description of the
pipeline ("Equalizer (always) → BassBoost (only if bass_boost>0) → Echo
(dry/wet mix by echo_mix, only if >0) → Reverb (dry/wet mix by
reverb_mix, only if >0) → SoftClipper.saturate (always)"); the refinement
theorem for C1 proves `EffectsProcessor.process` equal to their
composition. -/

/-- Pipeline stage 1: the equalizer, always applied. -/
def stageEqualizer (st : ℝ × EffectsProcessor) : ℝ × EffectsProcessor :=
  let r := st.2.equalizer.process st.1
  (r.1, { st.2 with equalizer := r.2 })

/-- Pipeline stage 2: bass boost, only when `bass_boost > 0`. -/
def stageBassBoost (st : ℝ × EffectsProcessor) : ℝ × EffectsProcessor :=
  if 0 < st.2.config.bass_boost then
    let r := st.2.bass_boost.process st.1
    (r.1, { st.2 with bass_boost := r.2 })
  else st

/-- Pipeline stage 3: echo, mixed as `dry * (1 - echo_mix) + wet * echo_mix`,
only when `echo_mix > 0`. -/
def stageEcho (st : ℝ × EffectsProcessor) : ℝ × EffectsProcessor :=
  if 0 < st.2.config.echo_mix then
    let r := st.2.echo.process st.1
    (st.1 * (1 - st.2.config.echo_mix) + r.1 * st.2.config.echo_mix,
     { st.2 with echo := r.2 })
  else st

/-- Pipeline stage 4: reverb, mixed as
`dry * (1 - reverb_mix) + wet * reverb_mix`, only when `reverb_mix > 0`. -/
def stageReverb (st : ℝ × EffectsProcessor) : ℝ × EffectsProcessor :=
  if 0 < st.2.config.reverb_mix then
    let r := st.2.reverb.process st.1
    (st.1 * (1 - st.2.config.reverb_mix) + r.1 * st.2.config.reverb_mix,
     { st.2 with reverb := r.2 })
  else st

/-- Pipeline stage 5: the soft clipper, always applied last. -/
def stageSoftClip (st : ℝ × EffectsProcessor) : ℝ × EffectsProcessor :=
  (SoftClipper.saturate st.1, st.2)

end EffectsModel

/-- A biquad whose coefficients make it an exact identity filter with
quiescent delay registers: `a0 = 1`, matching feedforward/feedback
coefficients, and zero state.  At 0 dB gain, all three coefficient
designs in `effects.rs` produce such filters. -/
def BiquadFilter.IsIdentityReady (f : BiquadFilter) : Prop :=
  f.a0 = 1 ∧ f.a1 = f.b1 ∧ f.a2 = f.b2 ∧ f.z1 = 0 ∧ f.z2 = 0

/-! ## Theorems -/

/-! ### PlaybackState invariants and claims -/

/-- Every reachable `PlaybackState` has non-negative `seek_offset`,
`paused_duration` and `total_duration` (they model Rust `Duration`
values). -/
theorem PlaybackState.reachable_nonneg {s : PlaybackState} {t : ℚ}
    (h : s.Reachable t) :
    0 ≤ s.seek_offset ∧ 0 ≤ s.paused_duration ∧ 0 ≤ s.total_duration := by
  induction h with
  | init t => simp [PlaybackState.new]
  | @load s t t' path duration hr hle hd ih =>
      simpa [PlaybackState.reset_for_load] using hd
  | @play s t t' hr hle ih =>
      obtain ⟨h1, h2, h3⟩ := ih
      unfold PlaybackState.mark_playing
      cases hps : s.pause_start with
      | some ps =>
          have he : 0 ≤ elapsedQ t' ps := le_max_right _ _
          simp only [hps]
          refine ⟨h1, by linarith, h3⟩
      | none => simp only [hps]; exact ⟨h1, h2, h3⟩
  | @pause s t t' hr hle ih => simpa [PlaybackState.mark_paused] using ih
  | @clear s t t' hr hle ih =>
      obtain ⟨h1, h2, h3⟩ := ih
      simp [PlaybackState.clear, h3]
  | @seek s t t' position is_paused hr hle hp ih =>
      obtain ⟨h1, h2, h3⟩ := ih
      simp [PlaybackState.mark_seeked, hp, h3]

/-- Claim C3 (amended): for every reachable state, `get_position` is never
negative; it returns `total_duration` verbatim whenever the sink is empty
and a start time is recorded; and it never exceeds `total_duration`
whenever `total_duration` is positive.  (When `total_duration` is zero —
duration unknown — the source skips the clamp and the raw wall-clock
position is returned, which is what the counterexample below exhibits.) -/
theorem PlaybackState.get_position_bounds {s : PlaybackState} {t : ℚ}
    (h : s.Reachable t) (now : ℚ) (se sp : Bool) :
    0 ≤ s.get_position now se sp ∧
    (0 < s.total_duration → s.get_position now se sp ≤ s.total_duration) ∧
    (se = true → s.start_time.isSome = true →
      s.get_position now se sp = s.total_duration) := by
  obtain ⟨h1, h2, h3⟩ := PlaybackState.reachable_nonneg h
  unfold PlaybackState.get_position
  by_cases hse : (se && s.start_time.isSome) = true
  · simp [hse, h3]
  · rw [if_neg (by simpa using hse)]
    cases hst : s.start_time with
    | none =>
        exact ⟨le_rfl, fun hd => le_of_lt hd, fun hse2 hsome => by simp at hsome⟩
    | some start =>
        have hse2 : se = false := by
          cases se
          · rfl
          · rw [hst] at hse
            exact absurd rfl hse
        dsimp only
        have hplay : 0 ≤ dsubQ (elapsedQ now start)
            (s.paused_duration + if sp = true then (s.pause_start.map (elapsedQ now)).getD 0 else 0) :=
          le_max_right _ _
        by_cases hd : 0 < s.total_duration
        · rw [if_pos hd]
          refine ⟨le_min (by linarith) (le_of_lt hd), fun _ => min_le_right _ _,
            fun hc => by simp [hse2] at hc⟩
        · rw [if_neg hd]
          exact ⟨by linarith, fun hc => absurd hc hd, fun hc => by simp [hse2] at hc⟩

/-- Witness for `PlaybackState.get_position_bounds` at a concrete
reachable state. -/
theorem PlaybackState.get_position_bounds_witness :
    0 ≤ (((PlaybackState.new.reset_for_load "a.mp3" 10).mark_playing 1).1).get_position 4 false false ∧
    (0 < (((PlaybackState.new.reset_for_load "a.mp3" 10).mark_playing 1).1).total_duration →
      (((PlaybackState.new.reset_for_load "a.mp3" 10).mark_playing 1).1).get_position 4 false false ≤
        (((PlaybackState.new.reset_for_load "a.mp3" 10).mark_playing 1).1).total_duration) :=
  ⟨(PlaybackState.get_position_bounds
      (PlaybackState.Reachable.play 1
        (PlaybackState.Reachable.load 0 "a.mp3" 10 (PlaybackState.Reachable.init 0)
          le_rfl (by norm_num)) (by norm_num)) 4 false false).1,
   (PlaybackState.get_position_bounds
      (PlaybackState.Reachable.play 1
        (PlaybackState.Reachable.load 0 "a.mp3" 10 (PlaybackState.Reachable.init 0)
          le_rfl (by norm_num)) (by norm_num)) 4 false false).2.1⟩

/-- Counterexample to claim C3 as stated: the reachable state obtained by
calling `mark_playing` on a fresh `PlaybackState` (so `total_duration = 0`)
yields, five seconds later, a position of 5, strictly exceeding
`total_duration`. -/
theorem PlaybackState.get_position_exceeds_total_counterexample :
    ((PlaybackState.new.mark_playing 0).1).Reachable 0 ∧
    ((PlaybackState.new.mark_playing 0).1).total_duration <
      ((PlaybackState.new.mark_playing 0).1).get_position 5 false false :=
  ⟨PlaybackState.Reachable.play 0 (PlaybackState.Reachable.init 0) le_rfl, by
    norm_num [PlaybackState.new, PlaybackState.mark_playing, PlaybackState.get_position,
      elapsedQ, dsubQ, max_def]⟩

/-- Claim C4: seek round-trip.  After `mark_seeked(t, is_paused)`, an
immediate `get_position` (same wall-clock instant, sink not empty)
returns exactly `t`, for any prior state and any sink-paused flag,
whenever `0 ≤ t ≤ total_duration`. -/
theorem PlaybackState.seek_roundtrip (s : PlaybackState) (now t : ℚ)
    (ip sp : Bool) (h0 : 0 ≤ t) (h1 : t ≤ s.total_duration) :
    (s.mark_seeked now t ip).get_position now false sp = t := by
  unfold PlaybackState.mark_seeked PlaybackState.get_position
  simp only [Bool.false_and, if_neg Bool.false_ne_true]
  have he : elapsedQ now now = 0 := by simp [elapsedQ]
  have hap : (if sp = true then
      ((if ip = true then some now else none).map (elapsedQ now)).getD 0 else 0) = 0 := by
    cases sp <;> cases ip <;> simp [he]
  rw [hap, he]
  have hpt : dsubQ 0 (0 + 0) = 0 := by simp [dsubQ]
  rw [hpt, add_zero]
  by_cases hd : 0 < s.total_duration
  · rw [if_pos hd]
    exact min_eq_left h1
  · rw [if_neg hd]

/-- Witness for `PlaybackState.seek_roundtrip`: seeking to 120 s in a
300 s track reports position 120 s immediately afterwards. -/
theorem PlaybackState.seek_roundtrip_witness :
    (0 : ℚ) ≤ 120 ∧
    (120 : ℚ) ≤ (PlaybackState.new.reset_for_load "s.mp3" 300).total_duration ∧
    ((PlaybackState.new.reset_for_load "s.mp3" 300).mark_seeked 10 120 false).get_position
      10 false false = 120 :=
  ⟨by norm_num, by norm_num [PlaybackState.new, PlaybackState.reset_for_load],
   PlaybackState.seek_roundtrip _ 10 120 false false (by norm_num)
     (by norm_num [PlaybackState.new, PlaybackState.reset_for_load])⟩

/-- Claim C5 (amended): `clear` resets `current_path`, `start_time`,
`seek_offset`, `pause_start` and `paused_duration` to their initial
values, but leaves `total_duration` at its previous value (the source
does not touch it). -/
theorem PlaybackState.clear_resets_all_but_total (s : PlaybackState) :
    s.clear.current_path = none ∧ s.clear.start_time = none ∧
    s.clear.seek_offset = 0 ∧ s.clear.pause_start = none ∧
    s.clear.paused_duration = 0 ∧ s.clear.total_duration = s.total_duration := by
  simp [PlaybackState.clear]

/-- Counterexample to claim C5 as stated: after loading a 100 s track,
`clear` leaves `total_duration` at 100, so the cleared state is not equal
to a freshly constructed `PlaybackState` (whose `total_duration` is 0). -/
theorem PlaybackState.clear_keeps_total_counterexample :
    ((PlaybackState.new.reset_for_load "x.mp3" 100).clear).total_duration = 100 ∧
    (PlaybackState.new.reset_for_load "x.mp3" 100).clear ≠ PlaybackState.new := by
  constructor
  · rfl
  · intro hcontra
    have : ((PlaybackState.new.reset_for_load "x.mp3" 100).clear).total_duration =
        PlaybackState.new.total_duration := by rw [hcontra]
    norm_num [PlaybackState.new, PlaybackState.reset_for_load, PlaybackState.clear] at this

/-- Claim C10 (amended): calling `mark_playing` while already playing
(start time recorded, not paused) returns `None`, overwrites
`start_time` with the current instant, and leaves `seek_offset` and
`paused_duration` unchanged — so all play time elapsed since the
previous start is discarded.  An immediate `get_position` then reports
the seek offset clamped by the track duration:
`min(seek_offset, total_duration)` when `total_duration > 0`, and the
raw `seek_offset` when `total_duration = 0`.  (It equals `seek_offset`
itself only when the offset lies within the track; the counterexample
below shows a reachable playing state seeked past the track end where
the position reported is `total_duration`, not `seek_offset`.) -/
theorem PlaybackState.mark_playing_while_playing (s : PlaybackState)
    (now st : ℚ) (sp : Bool)
    (hst : s.start_time = some st) (hps : s.pause_start = none)
    (hpd : 0 ≤ s.paused_duration) :
    (s.mark_playing now).2 = none ∧
    (s.mark_playing now).1 = { s with start_time := some now } ∧
    (s.mark_playing now).1.seek_offset = s.seek_offset ∧
    (s.mark_playing now).1.paused_duration = s.paused_duration ∧
    (s.mark_playing now).1.get_position now false sp =
      (if 0 < s.total_duration then min s.seek_offset s.total_duration
       else s.seek_offset) := by
  unfold PlaybackState.mark_playing
  rw [hps]
  refine ⟨rfl, rfl, rfl, rfl, ?_⟩
  unfold PlaybackState.get_position
  simp only [Bool.false_and, if_neg Bool.false_ne_true]
  have he : elapsedQ now now = 0 := by simp [elapsedQ]
  have hap : (if sp = true then ((none : Option ℚ).map (elapsedQ now)).getD 0 else 0) = 0 := by
    cases sp <;> simp
  rw [he, hap]
  have hpt : dsubQ 0 (s.paused_duration + 0) = 0 := by
    simp only [dsubQ, add_zero]
    rw [max_eq_right]
    linarith
  rw [hpt, add_zero]

/-- Witness for `PlaybackState.mark_playing_while_playing` at a concrete
playing state with a 30 s seek offset into a 100 s track, where the
clamp is inactive and the reported position is the seek offset. -/
theorem PlaybackState.mark_playing_while_playing_witness :
    (({ current_path := some "a.mp3", start_time := some 0, seek_offset := 30,
        pause_start := none, paused_duration := 0,
        total_duration := 100 } : PlaybackState).mark_playing 50).2 = none ∧
    (({ current_path := some "a.mp3", start_time := some 0, seek_offset := 30,
        pause_start := none, paused_duration := 0,
        total_duration := 100 } : PlaybackState).mark_playing 50).1.get_position
      50 false false = 30 := by
  have h := PlaybackState.mark_playing_while_playing
    { current_path := some "a.mp3", start_time := some 0, seek_offset := 30,
      pause_start := none, paused_duration := 0, total_duration := 100 }
    50 0 false rfl rfl (by norm_num)
  refine ⟨h.1, ?_⟩
  rw [h.2.2.2.2]
  norm_num

/-- Counterexample to claim C10 as stated: the reachable playing state
obtained by loading a 100 s track, starting playback and seeking to
200 s (the source's `mark_seeked` accepts positions past the track end)
is Playing with `seek_offset = 200`; calling `mark_playing` again
returns `None` and keeps `seek_offset = 200`, but an immediate
`get_position` reports the clamped value 100 — the track duration — not
the seek offset. -/
theorem PlaybackState.mark_playing_seek_offset_counterexample :
    ((((PlaybackState.new.reset_for_load "x.mp3" 100).mark_playing 0).1.mark_seeked
        0 200 false)).Reachable 0 ∧
    ((((PlaybackState.new.reset_for_load "x.mp3" 100).mark_playing 0).1.mark_seeked
        0 200 false)).start_time.isSome = true ∧
    ((((PlaybackState.new.reset_for_load "x.mp3" 100).mark_playing 0).1.mark_seeked
        0 200 false)).pause_start = none ∧
    (((((PlaybackState.new.reset_for_load "x.mp3" 100).mark_playing 0).1.mark_seeked
        0 200 false)).mark_playing 5).2 = none ∧
    (((((PlaybackState.new.reset_for_load "x.mp3" 100).mark_playing 0).1.mark_seeked
        0 200 false)).mark_playing 5).1.seek_offset = 200 ∧
    (((((PlaybackState.new.reset_for_load "x.mp3" 100).mark_playing 0).1.mark_seeked
        0 200 false)).mark_playing 5).1.get_position 5 false false = 100 := by
  refine ⟨?_, rfl, rfl, rfl, rfl, ?_⟩
  · exact PlaybackState.Reachable.seek 0 200 false
      (PlaybackState.Reachable.play 0
        (PlaybackState.Reachable.load 0 "x.mp3" 100 (PlaybackState.Reachable.init 0)
          le_rfl (by norm_num)) le_rfl) le_rfl (by norm_num)
  · norm_num [PlaybackState.new, PlaybackState.reset_for_load, PlaybackState.mark_playing,
      PlaybackState.mark_seeked, PlaybackState.get_position, elapsedQ, dsubQ, max_def, min_def]

/-! ### VisualizerBuffer claims -/

/-- `lastN` never exceeds its length bound. -/
theorem lastN_length_le (c : ℕ) (xs : List ℚ) : (lastN c xs).length ≤ c := by
  simp only [lastN, List.length_drop]
  omega

/-- One `push` on a buffer within capacity keeps the `c` most recent
samples, in order. -/
theorem VisualizerBuffer.push_eq_lastN (b : VisualizerBuffer) (s : ℚ)
    (hc : 1 ≤ b.capacity) (hle : b.samples.length ≤ b.capacity) :
    (b.push s).samples = lastN b.capacity (b.samples ++ [s]) ∧
    (b.push s).capacity = b.capacity := by
  unfold VisualizerBuffer.push lastN
  by_cases h : b.capacity ≤ b.samples.length
  · have hlen : b.samples.length = b.capacity := le_antisymm hle h
    rw [if_pos h]
    refine ⟨?_, rfl⟩
    have e1 : (b.samples ++ [s]).length - b.capacity = 1 := by
      simp [List.length_append, hlen]
    rw [e1, List.drop_append_of_le_length (by omega)]
  · rw [if_neg h]
    refine ⟨?_, rfl⟩
    have e0 : (b.samples ++ [s]).length - b.capacity = 0 := by
      simp only [List.length_append, List.length_singleton]
      omega
    rw [e0, List.drop_zero]

/-- Appending one sample commutes with taking the `c` most recent
samples. -/
theorem lastN_append_singleton (c : ℕ) (hc : 1 ≤ c) (xs : List ℚ) (s : ℚ) :
    lastN c (lastN c xs ++ [s]) = lastN c (xs ++ [s]) := by
  unfold lastN
  by_cases h : xs.length ≤ c
  · rw [Nat.sub_eq_zero_of_le h, List.drop_zero]
  · push_neg at h
    have hu : (xs.drop (xs.length - c)).length = c := by
      rw [List.length_drop]
      omega
    have e1 : (xs.drop (xs.length - c) ++ [s]).length - c = 1 := by
      simp [List.length_append, hu]
    have e2 : (xs ++ [s]).length - c = (xs.length - c) + 1 := by
      simp only [List.length_append, List.length_singleton]
      omega
    rw [e1, e2, List.drop_append_of_le_length (by omega),
      List.drop_append_of_le_length (by omega), List.drop_drop]

/-- Pushing a whole sample sequence into a fresh buffer of capacity
`c ≥ 1` keeps exactly the `c` most recent samples, in push order. -/
theorem VisualizerBuffer.pushAll_new_eq_lastN (c : ℕ) (hc : 1 ≤ c) (l : List ℚ) :
    ((VisualizerBuffer.new c).pushAll l).samples = lastN c l ∧
    ((VisualizerBuffer.new c).pushAll l).capacity = c := by
  induction l using List.reverseRecOn with
  | nil =>
      refine ⟨?_, rfl⟩
      simp [VisualizerBuffer.pushAll, VisualizerBuffer.new, lastN]
  | append_singleton xs s ih =>
      obtain ⟨h1, h2⟩ := ih
      have hle : ((VisualizerBuffer.new c).pushAll xs).samples.length ≤
          ((VisualizerBuffer.new c).pushAll xs).capacity := by
        rw [h1, h2]
        exact lastN_length_le c xs
      have hp := VisualizerBuffer.push_eq_lastN _ s (by rw [h2]; exact hc) hle
      have hfold : (VisualizerBuffer.new c).pushAll (xs ++ [s]) =
          ((VisualizerBuffer.new c).pushAll xs).push s := by
        unfold VisualizerBuffer.pushAll
        rw [List.foldl_append, List.foldl_cons, List.foldl_nil]
      rw [hfold]
      refine ⟨?_, by rw [hp.2, h2]⟩
      rw [hp.1, h2, h1]
      exact lastN_append_singleton c hc xs s

/-- Claim C8 (amended): for a buffer of capacity `c ≥ 1` (the player uses
4096), any sequence of pushes leaves at most `c` stored samples,
`get_samples` returns the currently stored samples in oldest-to-newest
push order (exactly the `c` most recent pushes), and a push on a full
buffer evicts exactly the oldest sample before appending the new one. -/
theorem VisualizerBuffer.ring_buffer_invariant (c : ℕ) (hc : 1 ≤ c) :
    (∀ l : List ℚ,
      ((VisualizerBuffer.new c).pushAll l).get_samples = lastN c l ∧
      ((VisualizerBuffer.new c).pushAll l).get_samples.length ≤ c) ∧
    (∀ (b : VisualizerBuffer) (s : ℚ), b.capacity = c → b.samples.length = c →
      (b.push s).samples = b.samples.drop 1 ++ [s]) := by
  constructor
  · intro l
    obtain ⟨h1, _⟩ := VisualizerBuffer.pushAll_new_eq_lastN c hc l
    refine ⟨h1, ?_⟩
    rw [VisualizerBuffer.get_samples, h1]
    exact lastN_length_le c l
  · intro b s hbc hbl
    unfold VisualizerBuffer.push
    rw [if_pos (by rw [hbl, hbc])]

/-- Witness for `VisualizerBuffer.ring_buffer_invariant` at the player's
capacity 4096. -/
theorem VisualizerBuffer.ring_buffer_invariant_witness :
    1 ≤ 4096 ∧
    ((VisualizerBuffer.new 4096).pushAll [1, 2, 3]).get_samples = lastN 4096 [1, 2, 3] :=
  ⟨by norm_num,
   ((VisualizerBuffer.ring_buffer_invariant 4096 (by norm_num)).1 [1, 2, 3]).1⟩

/-- Counterexample to claim C8 as stated for capacity 0: a push on a
zero-capacity buffer stores one sample, exceeding the capacity. -/
theorem VisualizerBuffer.capacity_zero_counterexample :
    (VisualizerBuffer.new 0).capacity = 0 ∧
    ((VisualizerBuffer.new 0).push 1).get_samples.length = 1 := by
  decide

/-! ### AudioPlayer recovery claim -/

/-- Claim C9: when no output device is available, `recover` returns
`Ok(false)` — not an error — and leaves the entire player state (loaded
path, timing fields, volume, sink, stream, mixer, device name)
unchanged. -/
theorem AudioPlayerState.recover_no_device (env : RecoverEnv)
    (s : AudioPlayerState) (h : env.deviceAvailable = false) :
    s.recover env = (Except.ok false, s) := by
  unfold AudioPlayerState.recover
  rw [h]
  rfl

/-- Witness for `AudioPlayerState.recover_no_device` at a concrete player
state and environment with no device. -/
theorem AudioPlayerState.recover_no_device_witness :
    ({ now := 7, deviceAvailable := false, createOutput := none,
       loadEff := fun _ s => (true, s), seekEff := fun _ s => (true, s),
       playEff := fun s => (true, s) } : RecoverEnv).deviceAvailable = false ∧
    ({ sink := { paused := true, empty := false, volume := 1 },
       stream := some 0, mixer := some 0, current_path := some "t.mp3",
       start_time := some 2, seek_offset := 5, pause_start := none,
       paused_duration := 0, total_duration := 180, last_volume := 1,
       last_active := 3, connected_device_name := some "dev" } : AudioPlayerState).recover
      { now := 7, deviceAvailable := false, createOutput := none,
        loadEff := fun _ s => (true, s), seekEff := fun _ s => (true, s),
        playEff := fun s => (true, s) } =
      (Except.ok false,
       { sink := { paused := true, empty := false, volume := 1 },
         stream := some 0, mixer := some 0, current_path := some "t.mp3",
         start_time := some 2, seek_offset := 5, pause_start := none,
         paused_duration := 0, total_duration := 180, last_volume := 1,
         last_active := 3, connected_device_name := some "dev" }) :=
  ⟨rfl, AudioPlayerState.recover_no_device _ _ rfl⟩

/-! ### Equalizer claims -/

/-- Claim C7: `update_gains` recomputes only the coefficient fields of
each band filter; every filter's delay registers `z1`, `z2` are exactly
unchanged, and the equalizer's `frequencies` and `sample_rate` are
untouched. -/
theorem Equalizer.update_gains_preserves_state (eq : Equalizer)
    (gains : Fin 10 → ℝ) (i : Fin 10) :
    ((eq.update_gains gains).filters i).z1 = (eq.filters i).z1 ∧
    ((eq.update_gains gains).filters i).z2 = (eq.filters i).z2 ∧
    (eq.update_gains gains).frequencies = eq.frequencies ∧
    (eq.update_gains gains).sample_rate = eq.sample_rate := by
  refine ⟨?_, ?_, rfl, rfl⟩ <;>
  · simp only [Equalizer.update_gains]
    split_ifs <;> rfl

/-! ### SoftClipper claims -/

/-- The hyperbolic tangent is strictly below 1. -/
theorem Real.tanh_lt_one' (x : ℝ) : Real.tanh x < 1 := by
  rw [Real.tanh_eq_sinh_div_cosh]
  exact (div_lt_one (Real.cosh_pos x)).mpr (Real.sinh_lt_cosh x)

/-- The hyperbolic tangent is strictly above -1. -/
theorem Real.neg_one_lt_tanh' (x : ℝ) : -1 < Real.tanh x := by
  have h := Real.tanh_lt_one' (-x)
  rw [Real.tanh_neg] at h
  linarith

/-- `saturate` lands strictly inside `(-1, 1)`. -/
theorem SoftClipper.saturate_mem (y : ℝ) :
    -1 < SoftClipper.saturate y ∧ SoftClipper.saturate y < 1 :=
  ⟨Real.neg_one_lt_tanh' (y * 1), Real.tanh_lt_one' (y * 1)⟩

/-- Claim C2: `saturate(x) = tanh(x)` with output magnitude strictly
below 1 for every (finite, here: real) input; consequently the full
`EffectsProcessor.process` output is strictly inside `(-1, 1)` for any
configuration within the documented ranges and any sample in `[-1, 1]`
(indeed for any real sample, since the clipper runs last). -/
theorem SoftClipper.saturate_tanh_and_process_bounded :
    (∀ x : ℝ, SoftClipper.saturate x = Real.tanh x ∧ |SoftClipper.saturate x| < 1) ∧
    ∀ (p : EffectsProcessor) (x : ℝ), p.config.InDocumentedRanges → |x| ≤ 1 →
      -1 < (p.process x).1 ∧ (p.process x).1 < 1 := by
  constructor
  · intro x
    refine ⟨by rw [SoftClipper.saturate, mul_one], ?_⟩
    rw [abs_lt]
    exact SoftClipper.saturate_mem x
  · intro p x _ _
    exact SoftClipper.saturate_mem _

/-- Witness for `SoftClipper.saturate_tanh_and_process_bounded` at the
default configuration and a zero sample. -/
theorem SoftClipper.saturate_tanh_and_process_bounded_witness :
    (EffectsProcessor.new 44100 EffectsConfig.default).config.InDocumentedRanges ∧
    |(0 : ℝ)| ≤ 1 ∧
    (-1 < ((EffectsProcessor.new 44100 EffectsConfig.default).process 0).1 ∧
      ((EffectsProcessor.new 44100 EffectsConfig.default).process 0).1 < 1) := by
  have hr : (EffectsProcessor.new 44100 EffectsConfig.default).config.InDocumentedRanges := by
    refine ⟨?_, ?_, ?_, ?_, ?_, ?_, ?_, ?_, ?_, ?_, ?_, ?_, ?_, fun i => ⟨?_, ?_⟩⟩ <;>
      norm_num [EffectsProcessor.new, EffectsConfig.default]
  exact ⟨hr, by norm_num,
    SoftClipper.saturate_tanh_and_process_bounded.2
      (EffectsProcessor.new 44100 EffectsConfig.default) 0 hr (by norm_num)⟩

/-! ### EffectsProcessor pipeline claim -/

/-- Claim C1: `EffectsProcessor.process` is exactly the staged pipeline
`Equalizer → BassBoost (if bass_boost > 0) → Echo mix (if echo_mix > 0)
→ Reverb mix (if reverb_mix > 0) → SoftClipper.saturate`, and a disabled
stage neither advances its filter state nor changes the sample passing
through it. -/
theorem EffectsProcessor.process_pipeline (p : EffectsProcessor) (x : ℝ) :
    p.process x =
      stageSoftClip (stageReverb (stageEcho (stageBassBoost (stageEqualizer (x, p))))) ∧
    (p.config.bass_boost ≤ 0 → (p.process x).2.bass_boost = p.bass_boost) ∧
    (p.config.echo_mix ≤ 0 → (p.process x).2.echo = p.echo) ∧
    (p.config.reverb_mix ≤ 0 → (p.process x).2.reverb = p.reverb) ∧
    (∀ st : ℝ × EffectsProcessor, st.2.config.bass_boost ≤ 0 → stageBassBoost st = st) ∧
    (∀ st : ℝ × EffectsProcessor, st.2.config.echo_mix ≤ 0 → stageEcho st = st) ∧
    (∀ st : ℝ × EffectsProcessor, st.2.config.reverb_mix ≤ 0 → stageReverb st = st) := by
  refine ⟨?_, ?_, ?_, ?_, ?_, ?_, ?_⟩
  · unfold EffectsProcessor.process stageSoftClip stageReverb stageEcho stageBassBoost
      stageEqualizer
    dsimp only
    by_cases hb : 0 < p.config.bass_boost <;>
      by_cases he : 0 < p.config.echo_mix <;>
        by_cases hr : 0 < p.config.reverb_mix <;>
          simp only [hb, he, hr, if_true, if_false]
  · intro h
    simp [EffectsProcessor.process, not_lt.mpr h]
  · intro h
    simp [EffectsProcessor.process, not_lt.mpr h]
  · intro h
    simp [EffectsProcessor.process, not_lt.mpr h]
  · intro st h
    unfold stageBassBoost
    rw [if_neg (not_lt.mpr h)]
  · intro st h
    unfold stageEcho
    rw [if_neg (not_lt.mpr h)]
  · intro st h
    unfold stageReverb
    rw [if_neg (not_lt.mpr h)]

/-- Witness for `EffectsProcessor.process_pipeline`: with the default
configuration (all mixes and the bass boost at zero) none of the optional
stages advances its state. -/
theorem EffectsProcessor.process_pipeline_witness :
    (EffectsProcessor.new 44100 EffectsConfig.default).config.bass_boost ≤ 0 ∧
    ((EffectsProcessor.new 44100 EffectsConfig.default).process 0).2.echo =
      (EffectsProcessor.new 44100 EffectsConfig.default).echo := by
  have h := EffectsProcessor.process_pipeline (EffectsProcessor.new 44100 EffectsConfig.default) 0
  refine ⟨by norm_num [EffectsProcessor.new, EffectsConfig.default], ?_⟩
  exact h.2.2.1 (by norm_num [EffectsProcessor.new, EffectsConfig.default])

/-- With `2q > 1`, the quantity `sin(w)/(2q)` (the biquad `alpha` at the
Q values used by the equalizer) stays strictly above -1. -/
theorem sinq_gt_neg_one (w q : ℝ) (hq : 1 < 2 * q) :
    -1 < Real.sin w / (2 * q) := by
  have h2q : (0:ℝ) < 2 * q := lt_trans one_pos hq
  rw [lt_div_iff₀ h2q]
  have hs := Real.neg_one_le_sin w
  nlinarith

/-- An identity-ready biquad maps every sample to itself and keeps its
state unchanged. -/
theorem BiquadFilter.process_of_identityReady {f : BiquadFilter}
    (h : f.IsIdentityReady) (x : ℝ) : f.process x = (x, f) := by
  rcases f with ⟨A0, A1, A2, B1, B2, Z1, Z2⟩
  obtain ⟨h0, h1, h2, hz1, hz2⟩ := h
  dsimp at h0 h1 h2 hz1 hz2
  subst h0 h1 h2 hz1 hz2
  unfold BiquadFilter.process
  dsimp
  rw [Prod.mk.injEq]
  constructor
  · ring
  · rw [BiquadFilter.mk.injEq]
    refine ⟨rfl, rfl, rfl, rfl, rfl, by ring, by ring⟩

/-- `set_peaking` with 0 dB gain yields an identity-ready filter (at the
peaking Q of 1.41, and any Q with `2q > 1`). -/
theorem BiquadFilter.set_peaking_zero_ready (f : BiquadFilter) (sr : ℕ)
    (freq q : ℝ) (hq : 1 < 2 * q) (hz1 : f.z1 = 0) (hz2 : f.z2 = 0) :
    (f.set_peaking sr freq q 0).IsIdentityReady := by
  have hα : -1 < Real.sin (2 * Real.pi * freq / (sr : ℝ)) / (2 * q) :=
    sinq_gt_neg_one (2 * Real.pi * freq / (sr : ℝ)) q hq
  unfold BiquadFilter.set_peaking BiquadFilter.IsIdentityReady
  have ha : (10:ℝ) ^ ((0:ℝ) / 40) = 1 := by rw [zero_div, Real.rpow_zero]
  simp only [ha, Real.sqrt_one, one_mul, mul_one, div_one, sub_self, zero_mul,
    mul_zero, sub_zero, add_zero, zero_add, zero_sub]
  refine ⟨?_, ?_, ?_, hz1, hz2⟩
  · apply div_self
    exact ne_of_gt (by linarith)
  · trivial
  · trivial

/-- `set_lowshelf` with 0 dB gain yields an identity-ready filter. -/
theorem BiquadFilter.set_lowshelf_zero_ready (f : BiquadFilter) (sr : ℕ)
    (freq q : ℝ) (hq : 1 < 2 * q) (hz1 : f.z1 = 0) (hz2 : f.z2 = 0) :
    (f.set_lowshelf sr freq q 0).IsIdentityReady := by
  have hα : -1 < Real.sin (2 * Real.pi * freq / (sr : ℝ)) / (2 * q) :=
    sinq_gt_neg_one (2 * Real.pi * freq / (sr : ℝ)) q hq
  unfold BiquadFilter.set_lowshelf BiquadFilter.IsIdentityReady
  have ha : (10:ℝ) ^ ((0:ℝ) / 40) = 1 := by rw [zero_div, Real.rpow_zero]
  simp only [ha, Real.sqrt_one, one_mul, mul_one, div_one, sub_self, zero_mul,
    mul_zero, sub_zero, add_zero, zero_add, zero_sub]
  refine ⟨?_, ?_, ?_, hz1, hz2⟩
  · apply div_self
    exact ne_of_gt (by linarith)
  · ring
  · trivial

/-- `set_highshelf` with 0 dB gain yields an identity-ready filter. -/
theorem BiquadFilter.set_highshelf_zero_ready (f : BiquadFilter) (sr : ℕ)
    (freq q : ℝ) (hq : 1 < 2 * q) (hz1 : f.z1 = 0) (hz2 : f.z2 = 0) :
    (f.set_highshelf sr freq q 0).IsIdentityReady := by
  have hα : -1 < Real.sin (2 * Real.pi * freq / (sr : ℝ)) / (2 * q) :=
    sinq_gt_neg_one (2 * Real.pi * freq / (sr : ℝ)) q hq
  unfold BiquadFilter.set_highshelf BiquadFilter.IsIdentityReady
  have ha : (10:ℝ) ^ ((0:ℝ) / 40) = 1 := by rw [zero_div, Real.rpow_zero]
  simp only [ha, Real.sqrt_one, one_mul, mul_one, div_one, sub_self, zero_mul,
    mul_zero, sub_zero, add_zero, zero_add, zero_sub]
  refine ⟨?_, ?_, ?_, hz1, hz2⟩
  · apply div_self
    exact ne_of_gt (by linarith)
  · ring
  · trivial

/-- Zero gains make every filter of the equalizer identity-ready, for any
starting filters with quiescent delay registers. -/
theorem Equalizer.update_gains_zero_ready (eq : Equalizer)
    (hz : ∀ i, (eq.filters i).z1 = 0 ∧ (eq.filters i).z2 = 0) (i : Fin 10) :
    ((eq.update_gains fun _ => 0).filters i).IsIdentityReady := by
  unfold Equalizer.update_gains
  dsimp only
  split_ifs with h1 h2
  · exact BiquadFilter.set_lowshelf_zero_ready _ _ _ _ (by norm_num) (hz i).1 (hz i).2
  · exact BiquadFilter.set_highshelf_zero_ready _ _ _ _ (by norm_num) (hz i).1 (hz i).2
  · exact BiquadFilter.set_peaking_zero_ready _ _ _ _ (by norm_num) (hz i).1 (hz i).2

/-- The filter-chain fold of `Equalizer.process` is the identity on both
the sample and the filter bank when every filter is identity-ready. -/
theorem eq_chain_fold_id (l : List (Fin 10)) :
    ∀ (x : ℝ) (fs : Fin 10 → BiquadFilter), (∀ i, (fs i).IsIdentityReady) →
      l.foldl
        (fun acc i =>
          let pr := (acc.2 i).process acc.1
          (pr.1, Function.update acc.2 i pr.2))
        (x, fs) = (x, fs) := by
  induction l with
  | nil => intro x fs _; rfl
  | cons j t ih =>
      intro x fs h
      rw [List.foldl_cons]
      have hj := BiquadFilter.process_of_identityReady (h j) x
      simp only [hj]
      rw [Function.update_eq_self]
      exact ih x fs h

/-- `Equalizer.process` is the identity when every filter is
identity-ready. -/
theorem Equalizer.process_of_ready (eq : Equalizer)
    (h : ∀ i, (eq.filters i).IsIdentityReady) (x : ℝ) :
    eq.process x = (x, eq) := by
  unfold Equalizer.process
  rw [eq_chain_fold_id (List.finRange 10) x eq.filters h]

/-- `Equalizer.processSeq` is the identity when every filter is
identity-ready. -/
theorem Equalizer.processSeq_of_ready (eq : Equalizer)
    (h : ∀ i, (eq.filters i).IsIdentityReady) (xs : List ℝ) :
    eq.processSeq xs = (xs, eq) := by
  induction xs with
  | nil => rfl
  | cons x t ih =>
      unfold Equalizer.processSeq
      rw [Equalizer.process_of_ready eq h x]
      dsimp only
      rw [ih]

/-- Claim C6: with all ten gains at 0 dB — in particular immediately
after `Equalizer::new` — the equalizer maps every input sequence to
itself exactly (in the real-number model), leaving its state unchanged;
likewise for `update_gains([0; 10])` on any equalizer whose delay
registers are zeroed. -/
theorem Equalizer.flat_at_zero_gains (sr : ℕ) (hsr : 0 < sr) (xs : List ℝ) :
    (Equalizer.new sr).processSeq xs = (xs, Equalizer.new sr) ∧
    ∀ eq : Equalizer, (∀ i, (eq.filters i).z1 = 0 ∧ (eq.filters i).z2 = 0) →
      (eq.update_gains fun _ => 0).processSeq xs = (xs, eq.update_gains fun _ => 0) := by
  constructor
  · exact Equalizer.processSeq_of_ready _
      (Equalizer.update_gains_zero_ready _ (fun i => ⟨rfl, rfl⟩)) xs
  · intro eq hz
    exact Equalizer.processSeq_of_ready _ (Equalizer.update_gains_zero_ready eq hz) xs

/-- Witness for `Equalizer.flat_at_zero_gains` at 44.1 kHz on a short
concrete sample sequence. -/
theorem Equalizer.flat_at_zero_gains_witness :
    0 < 44100 ∧
    (Equalizer.new 44100).processSeq [1, 0, -1/2] = ([1, 0, -1/2], Equalizer.new 44100) :=
  ⟨by norm_num, (Equalizer.flat_at_zero_gains 44100 (by norm_num) [1, 0, -1/2]).1⟩
